import Mathlib

/-!
Verification of the safe-reference primitive (`base::SafeRef`) of this
repository against its natural-language specification.

The repository ships only the contract test suite for the primitive
(`base/memory/safe_ref_unittest.cc`); the primitive itself lives outside the
given sources.  The model below is therefore built from the specification's
description of the data model (§3), the construction and access operations
(§4.2, §4.3), the deferred-call interaction (§4.4) and the error taxonomy
(§7), and is checked to reproduce the behaviour the test suite demands.
-/

namespace SafeRefModel

/-- Modelled from the spec: a liveness token is identified by a small id; the
referent's address is an abstract numeric address. -/
abbrev TokenId := Nat

/-- Modelled from the spec: abstract addresses of referents and of their
supertype views. -/
abbrev Address := Nat

/-- Modelled from the spec (§3, Liveness Token): the world maps each *live*
token to the referent's frozen address; a token absent from the list is
*dead*.  Once removed a token id is never re-added, so dead is permanent. -/
abbrev World := List (TokenId × Address)

/-- Modelled from the spec (§7): exactly two fatal conditions, Consumed-Use
(operating on a moved-from instance) and Stale-Use (operating on an instance
whose referent has been destroyed). -/
inductive Fatal where
  | consumedUse
  | staleUse
deriving DecidableEq, Repr

/-- Modelled from the spec (§3, Safe Reference): a value holding a handle to
a liveness token (`none` encodes the *consumed* state, the token handle slot
cleared by a move) and a frozen typed address. -/
structure SafeRef where
  token : Option TokenId
  address : Address
deriving DecidableEq, Repr

/-- Modelled from the spec (§4.1, `address_if_live`): the referent's address
while the token is live, `none` once dead. -/
def addressOf (w : World) (t : TokenId) : Option Address :=
  (w.find? (fun p => p.1 == t)).map (fun p => p.2)

/-- Modelled from the spec (§4.1, `is_live`): whether the token still reports
the referent alive. -/
def isLive (w : World) (t : TokenId) : Bool :=
  (addressOf w t).isSome

/-- Modelled from the spec (§3): the referent's destruction path transitions
its token to *dead*; the transition is irreversible (the entry is removed
and never re-added). -/
def destroy (w : World) (t : TokenId) : World :=
  w.filter (fun p => p.1 != t)

/-- Destruction of several referents in sequence. -/
def destroyMany (w : World) (ds : List TokenId) : World :=
  ds.foldl destroy w

/-- Modelled from the spec (§4.2, `from_factory` / `GetSafeRef`): the factory
on a live referent mints a *valid* reference carrying the shared token handle
and the referent's current address; on a dead referent the factory is not
callable, modelled as `none`. -/
def getSafeRef (w : World) (t : TokenId) : Option SafeRef :=
  (addressOf w t).map (fun a => ⟨some t, a⟩)

/-- Modelled from the spec (§4.3): dereference asserts not-consumed, then
asserts the token live; on success it returns the frozen typed address; on
either assertion failure the process aborts with the corresponding fatal
condition (modelled as the `Except.error` outcome — the abort terminates the
program, no recoverable value is produced). -/
def deref (w : World) (r : SafeRef) : Except Fatal Address :=
  match r.token with
  | none => Except.error Fatal.consumedUse
  | some t => if isLive w t then Except.ok r.address else Except.error Fatal.staleUse

/-- Modelled from the spec (§4.3): member access (operator arrow) performs
the same check-then-access as value access. -/
def memberAccess (w : World) (r : SafeRef) : Except Fatal Address :=
  deref w r

/-- Modelled from the spec (§4.3): value access (operator star). -/
def valueAccess (w : World) (r : SafeRef) : Except Fatal Address :=
  deref w r

/-- Modelled from the spec (§4.2): copy construction requires the source be
*valid* (not consumed) and asserts the source's liveness; the result is a
second *valid* instance sharing the token handle. -/
def copyFrom (w : World) (r : SafeRef) : Except Fatal SafeRef :=
  match r.token with
  | none => Except.error Fatal.consumedUse
  | some t =>
      if isLive w t then Except.ok ⟨some t, r.address⟩ else Except.error Fatal.staleUse

/-- Modelled from the spec (§4.2): move construction requires the source be
*valid* and asserts its liveness; the destination takes over the token handle
and address and the source transitions to *consumed* (its token handle slot
cleared).  Returns the pair (destination, post-move state of the source). -/
def moveFrom (w : World) (r : SafeRef) : Except Fatal (SafeRef × SafeRef) :=
  match r.token with
  | none => Except.error Fatal.consumedUse
  | some t =>
      if isLive w t then Except.ok (⟨some t, r.address⟩, ⟨none, r.address⟩)
      else Except.error Fatal.staleUse

/-- Modelled from the spec (§4.2): converting copy construction to a
compatible supertype view: same rules as copy, plus an address adjustment
`adj` computed once at conversion time; the produced instance shares the
original's token handle unchanged. -/
def convertCopyFrom (w : World) (adj : Address → Address) (r : SafeRef) :
    Except Fatal SafeRef :=
  match r.token with
  | none => Except.error Fatal.consumedUse
  | some t =>
      if isLive w t then Except.ok ⟨some t, adj r.address⟩
      else Except.error Fatal.staleUse

/-- Modelled from the spec (§4.2): converting move construction to a
supertype view: move rules plus the conversion-time address adjustment;
returns (destination, post-move state of the source). -/
def convertMoveFrom (w : World) (adj : Address → Address) (r : SafeRef) :
    Except Fatal (SafeRef × SafeRef) :=
  match r.token with
  | none => Except.error Fatal.consumedUse
  | some t =>
      if isLive w t then Except.ok (⟨some t, adj r.address⟩, ⟨none, r.address⟩)
      else Except.error Fatal.staleUse

/-- Modelled from the spec (§4.2, §8): copy assignment replaces the
destination's state wholesale with a copy of the source; the destination's
prior state (valid, stale or otherwise) plays no part. -/
def copyAssign (w : World) (dst src : SafeRef) : Except Fatal SafeRef :=
  copyFrom w src

/-- Modelled from the spec (§4.2, §8): move assignment replaces the
destination's state with the moved source; returns (new destination state,
post-move state of the source). -/
def moveAssign (w : World) (dst src : SafeRef) : Except Fatal (SafeRef × SafeRef) :=
  moveFrom w src

/-- Modelled from the spec (§4.2): converting copy assignment to a supertype
view, replacing the destination's state. -/
def convertCopyAssign (w : World) (adj : Address → Address) (dst src : SafeRef) :
    Except Fatal SafeRef :=
  convertCopyFrom w adj src

/-- Modelled from the spec (§4.2): converting move assignment to a supertype
view, replacing the destination's state. -/
def convertMoveAssign (w : World) (adj : Address → Address) (dst src : SafeRef) :
    Except Fatal (SafeRef × SafeRef) :=
  convertMoveFrom w adj src

/-- Modelled from the spec (§4.4): a deferred-call wrapper stores the safe
reference by value, triggering its copy semantics at capture time. -/
def bindCapture (w : World) (r : SafeRef) : Except Fatal SafeRef :=
  copyFrom w r

/-- Modelled from the spec (§4.4): invoking the deferred callable performs
the dereference-with-liveness-check of §4.3 in the world current at
invocation time, then delivers the referent to the wrapped function; if the
referent died between capture and invocation, invocation aborts fatally. -/
def invokeBound {α : Type} (w : World) (f : Address → α) (captured : SafeRef) :
    Except Fatal α :=
  (deref w captured).map f

/-! ## Basic lemmas about the world -/

theorem addressOf_cons (p : TokenId × Address) (ws : World) (t : TokenId) :
    addressOf (p :: ws) t = if p.1 = t then some p.2 else addressOf ws t := by
  by_cases hq : p.1 = t
  · rw [addressOf, List.find?_cons_of_pos _ (by simp [hq])]
    simp [hq]
  · rw [addressOf, List.find?_cons_of_neg _ (by simp [hq])]
    simp [hq, addressOf]

theorem destroy_cons (p : TokenId × Address) (ws : World) (t : TokenId) :
    destroy (p :: ws) t = if p.1 = t then destroy ws t else p :: destroy ws t := by
  by_cases hq : p.1 = t <;> simp [destroy, List.filter_cons, hq]

theorem addressOf_destroy_self (w : World) (t : TokenId) :
    addressOf (destroy w t) t = none := by
  induction w with
  | nil => rfl
  | cons p ws ih =>
    rw [destroy_cons]
    by_cases hq : p.1 = t
    · simpa [hq] using ih
    · simp [hq, addressOf_cons, ih]

theorem isLive_destroy_self (w : World) (t : TokenId) :
    isLive (destroy w t) t = false := by
  simp [isLive, addressOf_destroy_self]

theorem addressOf_destroy_ne (w : World) (t t2 : TokenId) (h : t ≠ t2) :
    addressOf (destroy w t2) t = addressOf w t := by
  induction w with
  | nil => rfl
  | cons p ws ih =>
    rw [destroy_cons, addressOf_cons]
    by_cases hp : p.1 = t2
    · have hpt : p.1 ≠ t := by
        rw [hp]
        exact Ne.symm h
      simp [hp, hpt, ih, Ne.symm h]
    · simp only [hp, if_false]
      rw [addressOf_cons]
      by_cases hq : p.1 = t
      · simp [hq]
      · simp [hq, ih]

theorem isLive_destroy_ne (w : World) (t t2 : TokenId) (h : t ≠ t2) :
    isLive (destroy w t2) t = isLive w t := by
  simp [isLive, addressOf_destroy_ne w t t2 h]

theorem addressOf_destroyMany (w : World) (ds : List TokenId) (t : TokenId)
    (h : t ∉ ds) : addressOf (destroyMany w ds) t = addressOf w t := by
  induction ds generalizing w with
  | nil => rfl
  | cons d rest ih =>
    have hd : t ≠ d := fun hh => h (hh ▸ List.mem_cons_self d rest)
    have hrest : t ∉ rest := fun hh => h (List.mem_cons_of_mem d hh)
    calc addressOf (destroyMany (destroy w d) rest) t
        = addressOf (destroy w d) t := ih (destroy w d) hrest
      _ = addressOf w t := addressOf_destroy_ne w t d hd

theorem getSafeRef_inv (w : World) (t : TokenId) (r : SafeRef)
    (h : getSafeRef w t = some r) :
    r.token = some t ∧ addressOf w t = some r.address := by
  unfold getSafeRef at h
  cases ha : addressOf w t with
  | none => rw [ha] at h; exact absurd h (by simp)
  | some a =>
      rw [ha] at h
      simp only [Option.map_some'] at h
      cases h
      exact ⟨rfl, rfl⟩

/-! ## Claim theorems -/

/-- C1: for every safe reference that is valid (token handle present, not
moved-from) whose referent has been destroyed, dereference — member access
(operator arrow) or value access (operator star) — is the Stale-Use fatal
abort; it never returns an address value. -/
theorem c1_deref_after_destroy_is_fatal (w : World) (r : SafeRef) (t : TokenId)
    (hv : r.token = some t) (hdead : isLive w t = false) :
    memberAccess w r = Except.error Fatal.staleUse ∧
    valueAccess w r = Except.error Fatal.staleUse ∧
    ∀ a : Address, deref w r ≠ Except.ok a := by
  have hd : deref w r = Except.error Fatal.staleUse := by
    simp [deref, hv, hdead]
  refine ⟨hd, hd, fun a hc => ?_⟩
  rw [hd] at hc
  exact Except.noConfusion hc

/-- Witness for C1: in the world where token 0 has been destroyed, a valid
reference to it aborts with Stale-Use on both access operators. -/
theorem c1_witness_concrete :
    memberAccess [] ⟨some 0, 5⟩ = Except.error Fatal.staleUse ∧
    valueAccess [] ⟨some 0, 5⟩ = Except.error Fatal.staleUse ∧
    deref [] ⟨some 0, 5⟩ ≠ Except.ok 5 := by
  obtain ⟨h1, h2, h3⟩ := c1_deref_after_destroy_is_fatal [] ⟨some 0, 5⟩ 0 rfl rfl
  exact ⟨h1, h2, h3 5⟩

/-- C2: after a valid safe reference is used as the source of a move, the
post-move source is consumed, and every subsequent operation on it —
dereference, copy-from, move-from, converting copy-from, converting
move-from, and the assignment forms — is the Consumed-Use fatal abort in
every later world, including worlds where the referent is still alive. -/
theorem c2_move_consumes_source_permanently (w : World) (r d rmoved : SafeRef)
    (h : moveFrom w r = Except.ok (d, rmoved)) :
    rmoved.token = none ∧
    ∀ (w2 : World) (adj : Address → Address) (dst : SafeRef),
      deref w2 rmoved = Except.error Fatal.consumedUse ∧
      copyFrom w2 rmoved = Except.error Fatal.consumedUse ∧
      moveFrom w2 rmoved = Except.error Fatal.consumedUse ∧
      convertCopyFrom w2 adj rmoved = Except.error Fatal.consumedUse ∧
      convertMoveFrom w2 adj rmoved = Except.error Fatal.consumedUse ∧
      copyAssign w2 dst rmoved = Except.error Fatal.consumedUse ∧
      moveAssign w2 dst rmoved = Except.error Fatal.consumedUse ∧
      convertCopyAssign w2 adj dst rmoved = Except.error Fatal.consumedUse ∧
      convertMoveAssign w2 adj dst rmoved = Except.error Fatal.consumedUse := by
  have ht : rmoved.token = none := by
    cases hrt : r.token with
    | none => simp [moveFrom, hrt] at h
    | some t =>
      by_cases hl : isLive w t
      · simp only [moveFrom, hrt, hl, if_true, Except.ok.injEq, Prod.mk.injEq] at h
        rw [← h.2]
      · simp [moveFrom, hrt, hl] at h
  refine ⟨ht, fun w2 adj dst => ?_⟩
  refine ⟨?_, ?_, ?_, ?_, ?_, ?_, ?_, ?_, ?_⟩ <;>
    simp [deref, copyFrom, moveFrom, convertCopyFrom, convertMoveFrom,
      copyAssign, moveAssign, convertCopyAssign, convertMoveAssign, ht]

/-- Witness for C2: moving from a live reference in the world where token 0
is alive leaves the source consumed; every operation on it in that same
(still alive) world aborts with Consumed-Use. -/
theorem c2_witness_concrete :
    (⟨none, 7⟩ : SafeRef).token = none ∧
    deref [(0, 7)] ⟨none, 7⟩ = Except.error Fatal.consumedUse ∧
    copyFrom [(0, 7)] ⟨none, 7⟩ = Except.error Fatal.consumedUse ∧
    moveFrom [(0, 7)] ⟨none, 7⟩ = Except.error Fatal.consumedUse ∧
    convertCopyFrom [(0, 7)] id ⟨none, 7⟩ = Except.error Fatal.consumedUse ∧
    convertMoveFrom [(0, 7)] id ⟨none, 7⟩ = Except.error Fatal.consumedUse ∧
    copyAssign [(0, 7)] ⟨some 0, 7⟩ ⟨none, 7⟩ = Except.error Fatal.consumedUse ∧
    moveAssign [(0, 7)] ⟨some 0, 7⟩ ⟨none, 7⟩ = Except.error Fatal.consumedUse ∧
    convertCopyAssign [(0, 7)] id ⟨some 0, 7⟩ ⟨none, 7⟩ =
      Except.error Fatal.consumedUse ∧
    convertMoveAssign [(0, 7)] id ⟨some 0, 7⟩ ⟨none, 7⟩ =
      Except.error Fatal.consumedUse := by
  obtain ⟨h1, h2⟩ :=
    c2_move_consumes_source_permanently [(0, 7)] ⟨some 0, 7⟩ ⟨some 0, 7⟩ ⟨none, 7⟩ rfl
  exact ⟨h1, h2 [(0, 7)] id ⟨some 0, 7⟩⟩

/-- C3: a safe reference minted by the factory on a live referent carries the
referent's current address, and in every later world reached by destroying
other referents (its own referent not among them) each dereference — member
access or value access — yields exactly that address. -/
theorem c3_factory_deref_roundtrip (w : World) (t : TokenId) (r : SafeRef)
    (ds : List TokenId) (hr : getSafeRef w t = some r) (hnd : t ∉ ds) :
    addressOf w t = some r.address ∧
    deref (destroyMany w ds) r = Except.ok r.address ∧
    memberAccess (destroyMany w ds) r = Except.ok r.address ∧
    valueAccess (destroyMany w ds) r = Except.ok r.address := by
  obtain ⟨ht, ha⟩ := getSafeRef_inv w t r hr
  have ha2 : addressOf (destroyMany w ds) t = some r.address := by
    rw [addressOf_destroyMany w ds t hnd, ha]
  have hl : isLive (destroyMany w ds) t = true := by simp [isLive, ha2]
  have hd : deref (destroyMany w ds) r = Except.ok r.address := by
    simp [deref, ht, hl]
  exact ⟨ha, hd, hd, hd⟩

/-- Witness for C3: token 0 with address 5 stays dereferenceable after the
unrelated referent of token 1 is destroyed. -/
theorem c3_witness_concrete :
    addressOf [(0, 5), (1, 9)] 0 = some 5 ∧
    deref (destroyMany [(0, 5), (1, 9)] [1]) ⟨some 0, 5⟩ = Except.ok 5 ∧
    memberAccess (destroyMany [(0, 5), (1, 9)] [1]) ⟨some 0, 5⟩ = Except.ok 5 ∧
    valueAccess (destroyMany [(0, 5), (1, 9)] [1]) ⟨some 0, 5⟩ = Except.ok 5 :=
  c3_factory_deref_roundtrip [(0, 5), (1, 9)] 0 ⟨some 0, 5⟩ [1] rfl (by decide)

/-- C4: converting a valid safe reference to a supertype view, by copy or by
move, yields a view holding the same token; once the referent is destroyed,
dereference of the supertype view is the Stale-Use fatal abort, dereference
of the copy-conversion original is the Stale-Use fatal abort, and
dereference of the move-conversion original (now consumed) is the
Consumed-Use fatal abort — liveness is shared through the one token. -/
theorem c4_upcast_shares_liveness (w : World) (t : TokenId)
    (adj : Address → Address) (r : SafeRef)
    (ht : r.token = some t) (hl : isLive w t = true) :
    convertCopyFrom w adj r = Except.ok ⟨some t, adj r.address⟩ ∧
    convertMoveFrom w adj r =
      Except.ok (⟨some t, adj r.address⟩, ⟨none, r.address⟩) ∧
    deref (destroy w t) ⟨some t, adj r.address⟩ = Except.error Fatal.staleUse ∧
    deref (destroy w t) r = Except.error Fatal.staleUse ∧
    deref (destroy w t) (⟨none, r.address⟩ : SafeRef) =
      Except.error Fatal.consumedUse := by
  have hdead : isLive (destroy w t) t = false := isLive_destroy_self w t
  refine ⟨?_, ?_, ?_, ?_, ?_⟩ <;>
    simp [convertCopyFrom, convertMoveFrom, deref, ht, hl, hdead]

/-- Witness for C4 with a nontrivial address adjustment (pointer offset 4):
after destroying token 0 both the original and the adjusted supertype view
abort. -/
theorem c4_witness_concrete :
    convertCopyFrom [(0, 5)] (fun a => a + 4) ⟨some 0, 5⟩ =
      Except.ok ⟨some 0, 9⟩ ∧
    convertMoveFrom [(0, 5)] (fun a => a + 4) ⟨some 0, 5⟩ =
      Except.ok (⟨some 0, 9⟩, ⟨none, 5⟩) ∧
    deref (destroy [(0, 5)] 0) ⟨some 0, 9⟩ = Except.error Fatal.staleUse ∧
    deref (destroy [(0, 5)] 0) ⟨some 0, 5⟩ = Except.error Fatal.staleUse ∧
    deref (destroy [(0, 5)] 0) (⟨none, 5⟩ : SafeRef) =
      Except.error Fatal.consumedUse :=
  c4_upcast_shares_liveness [(0, 5)] 0 (fun a => a + 4) ⟨some 0, 5⟩ rfl rfl

/-- C5: converting a valid safe reference to a supertype view by any of the
four forms — copy construction, move construction, copy assignment, move
assignment — produces a view whose address is the conversion-time
adjustment of the original address, which the inverse cast maps back to the
original referent's address, and which carries the original's token handle
unchanged. -/
theorem c5_upcast_address_and_token (w : World) (adj back : Address → Address)
    (hinv : ∀ a, back (adj a) = a) (r dst : SafeRef) (t : TokenId)
    (ht : r.token = some t) (hl : isLive w t = true) :
    convertCopyFrom w adj r = Except.ok ⟨r.token, adj r.address⟩ ∧
    convertMoveFrom w adj r =
      Except.ok (⟨r.token, adj r.address⟩, ⟨none, r.address⟩) ∧
    convertCopyAssign w adj dst r = Except.ok ⟨r.token, adj r.address⟩ ∧
    convertMoveAssign w adj dst r =
      Except.ok (⟨r.token, adj r.address⟩, ⟨none, r.address⟩) ∧
    back (adj r.address) = r.address := by
  refine ⟨?_, ?_, ?_, ?_, hinv r.address⟩ <;>
    simp [convertCopyFrom, convertMoveFrom, convertCopyAssign,
      convertMoveAssign, ht, hl]

/-- Witness for C5: adjustment adds offset 4, the back cast subtracts it;
all four conversion forms share token 0 and the back cast recovers the
referent address 5. -/
theorem c5_witness_concrete :
    convertCopyFrom [(0, 5)] (fun a => a + 4) ⟨some 0, 5⟩ =
      Except.ok ⟨some 0, 9⟩ ∧
    convertMoveFrom [(0, 5)] (fun a => a + 4) ⟨some 0, 5⟩ =
      Except.ok (⟨some 0, 9⟩, ⟨none, 5⟩) ∧
    convertCopyAssign [(0, 5)] (fun a => a + 4) ⟨some 0, 5⟩ ⟨some 0, 5⟩ =
      Except.ok ⟨some 0, 9⟩ ∧
    convertMoveAssign [(0, 5)] (fun a => a + 4) ⟨some 0, 5⟩ ⟨some 0, 5⟩ =
      Except.ok (⟨some 0, 9⟩, ⟨none, 5⟩) ∧
    (fun a => a - 4) ((fun a => a + 4) 5) = 5 :=
  c5_upcast_address_and_token [(0, 5)] (fun a => a + 4) (fun a => a - 4)
    (fun a => Nat.add_sub_cancel a 4) ⟨some 0, 5⟩ ⟨some 0, 5⟩ 0 rfl rfl

/-- C6: assigning a valid safe reference, by copy or by move, into a
variable that currently holds a stale reference (its referent destroyed,
the variable itself not consumed) is not fatal; the variable afterwards is
a valid reference to the new referent and dereferences to the new
referent's address — the prior staleness (shown by the destination's own
fatal dereference) is fully replaced. -/
theorem c6_assign_over_stale_recovers (w : World) (dst src : SafeRef)
    (t0 t : TokenId) (hdst : dst.token = some t0)
    (hstale : isLive w t0 = false) (hsrc : src.token = some t)
    (hl : isLive w t = true) :
    deref w dst = Except.error Fatal.staleUse ∧
    copyAssign w dst src = Except.ok ⟨some t, src.address⟩ ∧
    moveAssign w dst src =
      Except.ok (⟨some t, src.address⟩, ⟨none, src.address⟩) ∧
    deref w ⟨some t, src.address⟩ = Except.ok src.address := by
  refine ⟨?_, ?_, ?_, ?_⟩ <;>
    simp [copyAssign, moveAssign, copyFrom, moveFrom, deref, hsrc, hl,
      hdst, hstale]

/-- Witness for C6: the destination holds a reference to the destroyed
token 0 and recovers by assignment from a live reference to token 1. -/
theorem c6_witness_concrete :
    deref [(1, 9)] ⟨some 0, 5⟩ = Except.error Fatal.staleUse ∧
    copyAssign [(1, 9)] ⟨some 0, 5⟩ ⟨some 1, 9⟩ = Except.ok ⟨some 1, 9⟩ ∧
    moveAssign [(1, 9)] ⟨some 0, 5⟩ ⟨some 1, 9⟩ =
      Except.ok (⟨some 1, 9⟩, ⟨none, 9⟩) ∧
    deref [(1, 9)] ⟨some 1, 9⟩ = Except.ok 9 :=
  c6_assign_over_stale_recovers [(1, 9)] ⟨some 0, 5⟩ ⟨some 1, 9⟩ 0 1
    rfl rfl rfl rfl

/-- C7: copy-constructing from a valid safe reference produces a second
valid instance sharing the token handle and address; both instances
dereference to the same referent, consuming the copy via a move succeeds,
and — a move neither mutates the original value nor the world — the
original still dereferences to the referent afterwards. -/
theorem c7_copy_independent_of_consumption (w : World) (r : SafeRef)
    (t : TokenId) (ht : r.token = some t) (hl : isLive w t = true) :
    copyFrom w r = Except.ok ⟨r.token, r.address⟩ ∧
    deref w ⟨r.token, r.address⟩ = Except.ok r.address ∧
    moveFrom w ⟨r.token, r.address⟩ =
      Except.ok (⟨r.token, r.address⟩, ⟨none, r.address⟩) ∧
    deref w r = Except.ok r.address := by
  refine ⟨?_, ?_, ?_, ?_⟩ <;> simp [copyFrom, moveFrom, deref, ht, hl]

/-- Witness for C7: in the world where token 0 is live at address 5, the
copy shares the token, is consumable, and the original keeps
dereferencing. -/
theorem c7_witness_concrete :
    copyFrom [(0, 5)] ⟨some 0, 5⟩ = Except.ok ⟨some 0, 5⟩ ∧
    deref [(0, 5)] ⟨some 0, 5⟩ = Except.ok 5 ∧
    moveFrom [(0, 5)] ⟨some 0, 5⟩ = Except.ok (⟨some 0, 5⟩, ⟨none, 5⟩) ∧
    deref [(0, 5)] ⟨some 0, 5⟩ = Except.ok 5 :=
  c7_copy_independent_of_consumption [(0, 5)] ⟨some 0, 5⟩ 0 rfl rfl

/-- C8: a safe reference captured by value as a bound argument of a deferred
callable is copied at capture time; invoking the callable performs the
liveness-checked dereference at invocation time: in a later world where the
referent is still alive the wrapped function receives the referent's
address and the call completes, and in the world where the referent has
since been destroyed the invocation is the Stale-Use fatal abort. -/
theorem c8_bind_checks_liveness_at_invoke {α : Type} (w w2 : World)
    (r : SafeRef) (t : TokenId) (f : Address → α) (ht : r.token = some t)
    (hl : isLive w t = true) (hl2 : isLive w2 t = true) :
    bindCapture w r = Except.ok ⟨r.token, r.address⟩ ∧
    invokeBound w2 f ⟨r.token, r.address⟩ = Except.ok (f r.address) ∧
    invokeBound (destroy w2 t) f ⟨r.token, r.address⟩ =
      Except.error Fatal.staleUse := by
  have hdead : isLive (destroy w2 t) t = false := isLive_destroy_self w2 t
  refine ⟨?_, ?_, ?_⟩ <;>
    simp [bindCapture, copyFrom, invokeBound, deref, Except.map, ht, hl,
      hl2, hdead]

/-- Witness for C8: capture while token 0 is live, invoke successfully while
it is still live, and abort when invoked after its destruction. -/
theorem c8_witness_concrete :
    bindCapture [(0, 5)] ⟨some 0, 5⟩ = Except.ok ⟨some 0, 5⟩ ∧
    invokeBound [(0, 5)] (fun a => a + 1) ⟨some 0, 5⟩ = Except.ok 6 ∧
    invokeBound (destroy [(0, 5)] 0) (fun a => a + 1) ⟨some 0, 5⟩ =
      Except.error Fatal.staleUse :=
  c8_bind_checks_liveness_at_invoke [(0, 5)] [(0, 5)] ⟨some 0, 5⟩ 0
    (fun a => a + 1) rfl rfl rfl

/-- C9: member access and value access are pure reads taking the safe
reference immutably (so they apply to a const-qualified reference); on a
reference whose referent is alive both yield the referent's address, and
they agree on every input. -/
theorem c9_const_access_agrees (w : World) (r : SafeRef) (t : TokenId)
    (ht : r.token = some t) (hl : isLive w t = true) :
    memberAccess w r = Except.ok r.address ∧
    valueAccess w r = Except.ok r.address ∧
    memberAccess w r = valueAccess w r := by
  refine ⟨?_, ?_, rfl⟩ <;> simp [memberAccess, valueAccess, deref, ht, hl]

/-- Witness for C9: both operators on the live token 0 yield address 5. -/
theorem c9_witness_concrete :
    memberAccess [(0, 5)] ⟨some 0, 5⟩ = Except.ok 5 ∧
    valueAccess [(0, 5)] ⟨some 0, 5⟩ = Except.ok 5 ∧
    memberAccess [(0, 5)] ⟨some 0, 5⟩ = valueAccess [(0, 5)] ⟨some 0, 5⟩ :=
  c9_const_access_agrees [(0, 5)] ⟨some 0, 5⟩ 0 rfl rfl

/-- C10: two safe references minted by repeated factory calls on the same
live referent are equal values — hence each independently valid — and both
dereference to the referent's address; consuming the first via a move
succeeds and leaves the second dereferencing to that same address, as does
destroying a different referent (the one the first could have been
re-pointed at and let go stale with). -/
theorem c10_repeated_factory_refs_independent (w : World) (t t2 : TokenId)
    (r1 r2 : SafeRef) (h1 : getSafeRef w t = some r1)
    (h2 : getSafeRef w t = some r2) (hne : t2 ≠ t) :
    r1 = r2 ∧
    deref w r1 = Except.ok r1.address ∧
    deref w r2 = Except.ok r1.address ∧
    moveFrom w r1 = Except.ok (⟨some t, r1.address⟩, ⟨none, r1.address⟩) ∧
    deref (destroy w t2) r2 = Except.ok r1.address := by
  obtain ⟨ht1, ha1⟩ := getSafeRef_inv w t r1 h1
  obtain ⟨ht2, ha2⟩ := getSafeRef_inv w t r2 h2
  have haddr : r1.address = r2.address :=
    Option.some.inj (ha1.symm.trans ha2)
  have heq : r1 = r2 := by
    obtain ⟨tk1, a1⟩ := r1
    obtain ⟨tk2, a2⟩ := r2
    have e1 : tk1 = some t := ht1
    have e2 : tk2 = some t := ht2
    have e3 : a1 = a2 := haddr
    rw [e1, e2, e3]
  have hl : isLive w t = true := by simp [isLive, ha1]
  have hl2 : isLive (destroy w t2) t = true := by
    rw [isLive_destroy_ne w t t2 (Ne.symm hne)]
    exact hl
  refine ⟨heq, ?_, ?_, ?_, ?_⟩ <;>
    simp [deref, moveFrom, ht1, ht2, hl, hl2, haddr]

/-- Witness for C10: two factory results on the live token 0 coincide, both
dereference to address 5, the first is consumable by a move, and the second
still dereferences after the unrelated token 1 is destroyed. -/
theorem c10_witness_concrete :
    (⟨some 0, 5⟩ : SafeRef) = ⟨some 0, 5⟩ ∧
    deref [(0, 5), (1, 9)] ⟨some 0, 5⟩ = Except.ok 5 ∧
    deref [(0, 5), (1, 9)] ⟨some 0, 5⟩ = Except.ok 5 ∧
    moveFrom [(0, 5), (1, 9)] ⟨some 0, 5⟩ =
      Except.ok (⟨some 0, 5⟩, ⟨none, 5⟩) ∧
    deref (destroy [(0, 5), (1, 9)] 1) ⟨some 0, 5⟩ = Except.ok 5 :=
  c10_repeated_factory_refs_independent [(0, 5), (1, 9)] 0 1
    ⟨some 0, 5⟩ ⟨some 0, 5⟩ rfl rfl (by decide)

end SafeRefModel
